import Mathlib

/-!
# Verification of the bindiff match-propagation core (src/bindiff/bindiff.py)

Shallow embedding of the BinDiff class: the program graphs it annotates, the
match-propagation algorithm (_load_function_info, _load_basic_block_info,
_load_instruction_info), the metadata loader (_load_metadata plus the
session-wide application in __init__), and the orchestration facade
(_start_diffing).

Modelling conventions, all taken from the Python source:
* Addresses and algorithm tags are natural numbers; the enum decode
  FunctionAlgorithm(x) / BasicBlockAlgorithm(x) is modelled as the raw tag
  (bindiff/types.py is not part of the sources; the claims only need that
  both sides receive the same decoded value).
* A function is the ordered list of its basic blocks (Python dict iteration
  order = insertion order); a basic block is its address plus the list of its
  instruction addresses; a program is the ordered list of its functions.
* The in-place attribute mutation performed by the Python code is modelled as
  explicit state passing: DiffState holds every `match`, `similarity`,
  `confidence`, `algorithm` annotation keyed by address, together with the
  session's single_match list.  Blocks are compared by address (the Python
  comparisons are on graph objects; inside one function pair addresses
  identify blocks).  The truthiness test `if bb.match:` is modelled as
  Option.isSome (block objects are non-empty mappings, hence truthy).
* Python exceptions that can escape are an explicit error type: KeyError
  (mapping lookup miss), IndexError (the `[ ... ][0]` on an empty
  comprehension in the recovery code), AttributeError (`None.addr` inside the
  conflict print).  The conflict print is additionally recorded in a
  `conflicts` log so that "the conflict is reported" is an observable fact.
* The unbounded `while inst_data:` loop is run on explicit fuel; the fuel
  given by loadBasicBlockInfo is generous for every run appearing in the
  theorems below, each of which computes the loop's actual trace.
* Python floats are modelled as exact rationals, and the 3-decimal rounding
  `float("{0:.3f}".format(x))` as rounding to the nearest multiple of 1/1000.
-/

namespace Bindiff

/-- A basic block of a program graph: its address and the addresses of the
instructions it owns (the keys of the block's mapping). -/
structure BB where
  addr : Nat
  insts : List Nat
  deriving DecidableEq, Repr

/-- A function is its basic blocks in dictionary (insertion) order. -/
abbrev Func := List BB

/-- A program maps function addresses to functions (in insertion order). -/
abbrev Program := List (Nat × Func)

/-- Python `f[a]` on a function: the block with address a, if any. -/
def Func.findBlock (f : Func) (a : Nat) : Option BB :=
  f.find? (fun b => b.addr == a)

/-- Python `a in f` on a function: is a one of its block addresses? -/
def Func.hasBlockAddr (f : Func) (a : Nat) : Bool :=
  (f.findBlock a).isSome

/-- Python `i in bb` on a basic block: is i one of its instruction
addresses? -/
def BB.containsInst (b : BB) (i : Nat) : Bool :=
  b.insts.contains i

/-- Python `[x.addr for x in f.values() if i in x][0]` seen as an Option:
the address of the first block of f containing instruction address i. -/
def Func.owningBlock (f : Func) (i : Nat) : Option Nat :=
  (f.find? (fun b => b.containsInst i)).map BB.addr

/-- The recovery code's owning-block address for i, exactly as on lines
147-148 of bindiff.py: `i if i in f else [x.addr for x in f.values() if
i in x][0]`.  none models the IndexError case (i is neither a block
address nor contained in any block). -/
def Func.owningAddr (f : Func) (i : Nat) : Option Nat :=
  if f.hasBlockAddr i then some i else f.owningBlock i

/-- Python `p[a]` on a program: the function at address a, if any. -/
def Program.findFn (p : Program) (a : Nat) : Option Func :=
  (p.find? (fun x => x.1 == a)).map (fun x => x.2)

/-- Python exceptions that the modelled code can raise, plus the fuel bound
of the modelled while loop. -/
inductive PyErr where
  | keyError
  | indexError
  | attributeError
  | loopFuel
  deriving DecidableEq, Repr

/-- Function-level annotations set by _load_function_info: match pointers,
similarity, confidence and algorithm for each side, keyed by address. -/
structure FunAnnot where
  match1 : Nat → Option Nat
  match2 : Nat → Option Nat
  sim1 : Nat → Option ℚ
  sim2 : Nat → Option ℚ
  conf1 : Nat → Option ℚ
  conf2 : Nat → Option ℚ
  algo1 : Nat → Option Nat
  algo2 : Nat → Option Nat

/-- The mutable state threaded through propagation: every diff annotation on
the two program graphs plus the session's single_match list and the log of
reported basic-block conflicts (the print on line 137). -/
structure DiffState where
  funs : FunAnnot
  bbmatch1 : Nat → Option Nat
  bbmatch2 : Nat → Option Nat
  bbalgo1 : Nat → Option Nat
  bbalgo2 : Nat → Option Nat
  imatch1 : Nat → Option Nat
  imatch2 : Nat → Option Nat
  single : List (Nat × Nat)
  conflicts : List (Nat × Nat × Nat × Nat)

/-- Point update of an address-keyed annotation map. -/
def upd {α : Type} (f : Nat → Option α) (k : Nat) (v : α) : Nat → Option α :=
  fun x => if x = k then some v else f x

/-- The annotation state of two freshly exported (undiffed) programs. -/
def initState : DiffState where
  funs :=
    { match1 := fun _ => none, match2 := fun _ => none
      sim1 := fun _ => none, sim2 := fun _ => none
      conf1 := fun _ => none, conf2 := fun _ => none
      algo1 := fun _ => none, algo2 := fun _ => none }
  bbmatch1 := fun _ => none
  bbmatch2 := fun _ => none
  bbalgo1 := fun _ => none
  bbalgo2 := fun _ => none
  imatch1 := fun _ => none
  imatch2 := fun _ => none
  single := []
  conflicts := []

/-- Record of the conflict print on line 137 of bindiff.py. -/
def logConflict (st : DiffState) (a x b y : Nat) : DiffState :=
  { st with conflicts := st.conflicts ++ [(a, x, b, y)] }

/-- Lines 138-139: `bb1.match, bb2.match = bb2, bb1` and the symmetric
algorithm assignment. -/
def setBBMatch (st : DiffState) (a1 a2 algo : Nat) : DiffState :=
  { st with
    bbmatch1 := upd st.bbmatch1 a1 a2
    bbmatch2 := upd st.bbmatch2 a2 a1
    bbalgo1 := upd st.bbalgo1 a1 algo
    bbalgo2 := upd st.bbalgo2 a2 algo }

/-- _load_instruction_info (line 165): `inst1.match, inst2.match = inst2,
inst1`. -/
def setIMatch (st : DiffState) (i1 i2 : Nat) : DiffState :=
  { st with
    imatch1 := upd st.imatch1 i1 i2
    imatch2 := upd st.imatch2 i2 i1 }

/-- `self.single_match.append((i1, i2))`. -/
def addSingle (st : DiffState) (p : Nat × Nat) : DiffState :=
  { st with single := st.single ++ [p] }

/-- Lines 108-111: the function-level annotations of one function record. -/
def setFunMatch (st : DiffState) (a1 a2 : Nat) (sim conf : ℚ) (algo : Nat) :
    DiffState :=
  { st with
    funs :=
      { match1 := upd st.funs.match1 a1 a2
        match2 := upd st.funs.match2 a2 a1
        sim1 := upd st.funs.sim1 a1 sim
        sim2 := upd st.funs.sim2 a2 sim
        conf1 := upd st.funs.conf1 a1 conf
        conf2 := upd st.funs.conf2 a2 conf
        algo1 := upd st.funs.algo1 a1 algo
        algo2 := upd st.funs.algo2 a2 algo } }

/-- Lines 134-139 of bindiff.py, the head of the outer while loop: resolve
`bb1, bb2 = f1[bb_addr1], f2[bb_addr2]` (KeyError if absent), run the
conflict check and print (AttributeError when the print dereferences a None
match), then assign the symmetric block match and algorithm. -/
def resolveStep (f1 f2 : Func) (a1 a2 algo : Nat) (st : DiffState) :
    Except PyErr (BB × BB × DiffState) :=
  match f1.findBlock a1, f2.findBlock a2 with
  | some bb1, some bb2 =>
    let m1 := st.bbmatch1 bb1.addr
    let m2 := st.bbmatch2 bb2.addr
    if m1.isSome || m2.isSome then
      if m1 != some bb2.addr || m2 != some bb1.addr then
        match m1, m2 with
        | some x, some y =>
          .ok (bb1, bb2,
            setBBMatch (logConflict st bb1.addr x bb2.addr y) bb1.addr bb2.addr algo)
        | _, _ => .error .attributeError
      else
        .ok (bb1, bb2, setBBMatch st bb1.addr bb2.addr algo)
    else
      .ok (bb1, bb2, setBBMatch st bb1.addr bb2.addr algo)
  | _, _ => .error .keyError

/-- Outcome of the inner drain loop (lines 140-156): either the queue was
exhausted, or a break occurred and the outer loop continues with the (possibly
reassigned) current block addresses and the remaining queue. -/
inductive DrainOut where
  | done (st : DiffState)
  | cont (a1 a2 : Nat) (ps : List (Nat × Nat)) (st : DiffState)

/-- The inner while loop (lines 140-156): pop pairs from the front, match the
instructions on success; on KeyError run the recovery of lines 144-156.
The recovery reassigns bb_addr1/bb_addr2 to the owning-block addresses (none
there models the uncaught IndexError), then either appends to single_match
(owning block already matched) or re-inserts the pair at the front; either way
it breaks back to the outer loop with the current bb_addr values. -/
def drainInsts (f1 f2 : Func) (bb1 bb2 : BB) :
    List (Nat × Nat) → DiffState → Except PyErr DrainOut
  | [], st => .ok (.done st)
  | (i1, i2) :: rest, st =>
    if bb1.containsInst i1 && bb2.containsInst i2 then
      drainInsts f1 f2 bb1 bb2 rest (setIMatch st i1 i2)
    else if !bb1.containsInst i1 && !bb2.containsInst i2 then
      match f1.owningAddr i1 with
      | none => .error .indexError
      | some b1 =>
        match f2.owningAddr i2 with
        | none => .error .indexError
        | some b2 =>
          if (st.bbmatch1 b1).isSome || (st.bbmatch2 b2).isSome then
            .ok (.cont b1 b2 rest (addSingle st (i1, i2)))
          else
            .ok (.cont b1 b2 ((i1, i2) :: rest) st)
    else
      .ok (.cont bb1.addr bb2.addr rest (addSingle st (i1, i2)))

/-- The outer while loop of _load_basic_block_info, on explicit fuel.  The
loop exits as soon as the queue is empty; otherwise it resolves the current
block pair and drains the queue. -/
def loadBBLoop (f1 f2 : Func) (algo : Nat) :
    Nat → Nat → Nat → List (Nat × Nat) → DiffState → Except PyErr DiffState
  | _, _, _, [], st => .ok st
  | 0, _, _, _ :: _, _ => .error .loopFuel
  | fuel + 1, a1, a2, p :: tl, st =>
    match resolveStep f1 f2 a1 a2 algo st with
    | .error e => .error e
    | .ok (bb1, bb2, st1) =>
      match drainInsts f1 f2 bb1 bb2 (p :: tl) st1 with
      | .error e => .error e
      | .ok (.done st2) => .ok st2
      | .ok (.cont a1' a2' ps' st2) => loadBBLoop f1 f2 algo fuel a1' a2' ps' st2

/-- _load_basic_block_info (lines 116-156).  Each queue element is requeued at
most once before being consumed, so the chosen fuel covers every terminating
run; the theorems below compute the loop trace explicitly. -/
def loadBasicBlockInfo (f1 f2 : Func) (a1 a2 algo : Nat)
    (ps : List (Nat × Nat)) (st : DiffState) : Except PyErr DiffState :=
  loadBBLoop f1 f2 algo (2 * ps.length + 2) a1 a2 ps st

/-- One basic-block group as assembled by the record extractor in __init__
(lines 55-61): declared block addresses, algorithm, and the instruction pairs
in row order. -/
structure BBGroup where
  addr1 : Nat
  addr2 : Nat
  algo : Nat
  pairs : List (Nat × Nat)
  deriving DecidableEq, Repr

/-- One function record as assembled in __init__ (lines 53-61). -/
structure FunRecord where
  addr1 : Nat
  addr2 : Nat
  similarity : ℚ
  confidence : ℚ
  algo : Nat
  bbs : List BBGroup
  deriving Repr

/-- _load_function_info (lines 94-114): resolve the two functions (KeyError
if absent, uncaught), annotate them, then run every basic-block group. -/
def loadFunctionInfo (primary secondary : Program) (r : FunRecord)
    (st : DiffState) : Except PyErr DiffState :=
  match primary.findFn r.addr1, secondary.findFn r.addr2 with
  | some f1, some f2 =>
    r.bbs.foldlM
      (fun st g => loadBasicBlockInfo f1 f2 g.addr1 g.addr2 g.algo g.pairs st)
      (setFunMatch st r.addr1 r.addr2 r.similarity r.confidence r.algo)
  | _, _ => .error .keyError

/-- The record-application loop of __init__ (lines 63-64): every function
record in store order. -/
def loadAllFunctions (primary secondary : Program) (recs : List FunRecord)
    (st : DiffState) : Except PyErr DiffState :=
  recs.foldlM (fun st r => loadFunctionInfo primary secondary r st) st

/-- The rounding on lines 91-92, `float("{0:.3f}".format(x))`, over exact
rationals: round to the nearest multiple of 1/1000. -/
def round3 (q : ℚ) : ℚ :=
  (round (1000 * q) : ℚ) / 1000

/-- The session-wide similarity/confidence attributes after _load_metadata
plus lines 49-50 of __init__: the session values and the copies pushed onto
the primary and secondary program objects. -/
structure SessionMeta where
  similarity : ℚ
  confidence : ℚ
  primarySim : ℚ
  secondarySim : ℚ
  primaryConf : ℚ
  secondaryConf : ℚ
  deriving Repr

/-- _load_metadata (lines 87-92) restricted to similarity/confidence,
followed by the session-wide application on lines 49-50. -/
def loadMetadataAndApply (sim conf : ℚ) : SessionMeta :=
  let s := round3 sim
  let c := round3 conf
  { similarity := s, confidence := c
    primarySim := s, secondarySim := s
    primaryConf := c, secondaryConf := c }

/-- A directory entry of the differ's temporary output directory, as the
facade sees it: Path.stem-like base name and Path.suffix-like extension, the
full file name being base ++ ext. -/
structure DFile where
  base : String
  ext : String
  deriving DecidableEq, Repr

/-- Observable outcome of _start_diffing (lines 167-205): the returned code,
which file (if any) was moved onto the caller's output path, whether the
multiple-candidate warning fired, and whether the temporary directory was
removed. -/
structure DiffRunResult where
  retOut : Int
  movedFile : Option DFile
  warned : Bool
  removedTmp : Bool
  deriving DecidableEq, Repr

/-- _start_diffing (lines 167-205) over its observable effects.  retcode is
the differ subprocess exit code, stem1/stem2 the Path stems of the two input
files, tmpFiles the entries of the temporary output directory. -/
def startDiffing (retcode : Int) (stem1 stem2 : String)
    (tmpFiles : List DFile) : DiffRunResult :=
  if retcode != 0 then
    { retOut := retcode, movedFile := none, warned := false, removedTmp := false }
  else
    let expected : DFile := ⟨stem1 ++ "_vs_" ++ stem2, ".BinDiff"⟩
    if tmpFiles.contains expected then
      { retOut := 0, movedFile := some expected, warned := false, removedTmp := true }
    else
      let warned := decide (tmpFiles.length > 1)
      match tmpFiles.find? (fun f => f.ext == ".BinExport") with
      | some f =>
        { retOut := 0, movedFile := some f, warned := warned, removedTmp := true }
      | none =>
        { retOut := -2, movedFile := none, warned := warned, removedTmp := false }

end Bindiff

namespace Bindiff

/-! ## Basic lemmas about the state operations and graph lookups -/

@[simp] theorem upd_self {α : Type} (f : Nat → Option α) (k : Nat) (v : α) :
    upd f k v k = some v := by
  simp [upd]

theorem upd_ne {α : Type} (f : Nat → Option α) {x k : Nat} (v : α) (h : x ≠ k) :
    upd f k v x = f x := by
  simp [upd, h]

theorem upd_isSome {α : Type} (f : Nat → Option α) (k : Nat) (v : α) {b : Nat}
    (h : (f b).isSome = true) : (upd f k v b).isSome = true := by
  by_cases hb : b = k <;> simp [upd, hb, h]

theorem Func.findBlock_addr {f : Func} {a : Nat} {b : BB}
    (h : f.findBlock a = some b) : b.addr = a := by
  simpa using List.find?_some h

/-- The instruction-match assignments performed by a fully successful drain of
a pair queue. -/
def setIMatches (st : DiffState) (ps : List (Nat × Nat)) : DiffState :=
  ps.foldl (fun st p => setIMatch st p.1 p.2) st

@[simp] theorem setIMatches_nil (st : DiffState) : setIMatches st [] = st := rfl

theorem setIMatches_cons (st : DiffState) (p : Nat × Nat) (tl : List (Nat × Nat)) :
    setIMatches st (p :: tl) = setIMatches (setIMatch st p.1 p.2) tl := rfl

@[simp] theorem setIMatches_single (st : DiffState) (ps : List (Nat × Nat)) :
    (setIMatches st ps).single = st.single := by
  induction ps generalizing st with
  | nil => rfl
  | cons p tl ih => rw [setIMatches_cons, ih]; rfl

@[simp] theorem setIMatches_bbmatch1 (st : DiffState) (ps : List (Nat × Nat)) :
    (setIMatches st ps).bbmatch1 = st.bbmatch1 := by
  induction ps generalizing st with
  | nil => rfl
  | cons p tl ih => rw [setIMatches_cons, ih]; rfl

@[simp] theorem setIMatches_bbmatch2 (st : DiffState) (ps : List (Nat × Nat)) :
    (setIMatches st ps).bbmatch2 = st.bbmatch2 := by
  induction ps generalizing st with
  | nil => rfl
  | cons p tl ih => rw [setIMatches_cons, ih]; rfl

@[simp] theorem setIMatches_bbalgo1 (st : DiffState) (ps : List (Nat × Nat)) :
    (setIMatches st ps).bbalgo1 = st.bbalgo1 := by
  induction ps generalizing st with
  | nil => rfl
  | cons p tl ih => rw [setIMatches_cons, ih]; rfl

@[simp] theorem setIMatches_bbalgo2 (st : DiffState) (ps : List (Nat × Nat)) :
    (setIMatches st ps).bbalgo2 = st.bbalgo2 := by
  induction ps generalizing st with
  | nil => rfl
  | cons p tl ih => rw [setIMatches_cons, ih]; rfl

@[simp] theorem setIMatches_funs (st : DiffState) (ps : List (Nat × Nat)) :
    (setIMatches st ps).funs = st.funs := by
  induction ps generalizing st with
  | nil => rfl
  | cons p tl ih => rw [setIMatches_cons, ih]; rfl

theorem setIMatches_imatch1_ne {ps : List (Nat × Nat)} {a : Nat}
    (h : ∀ q ∈ ps, q.1 ≠ a) (st : DiffState) :
    (setIMatches st ps).imatch1 a = st.imatch1 a := by
  induction ps generalizing st with
  | nil => rfl
  | cons p tl ih =>
    rw [setIMatches_cons, ih (fun q hq => h q (by simp [hq]))]
    exact upd_ne _ _ (Ne.symm (h p (by simp)))

theorem setIMatches_imatch2_ne {ps : List (Nat × Nat)} {a : Nat}
    (h : ∀ q ∈ ps, q.2 ≠ a) (st : DiffState) :
    (setIMatches st ps).imatch2 a = st.imatch2 a := by
  induction ps generalizing st with
  | nil => rfl
  | cons p tl ih =>
    rw [setIMatches_cons, ih (fun q hq => h q (by simp [hq]))]
    exact upd_ne _ _ (Ne.symm (h p (by simp)))

theorem setIMatches_mem {ps : List (Nat × Nat)}
    (hpw : ps.Pairwise (fun p q => p.1 ≠ q.1 ∧ p.2 ≠ q.2)) {p : Nat × Nat}
    (hp : p ∈ ps) (st : DiffState) :
    (setIMatches st ps).imatch1 p.1 = some p.2 ∧
    (setIMatches st ps).imatch2 p.2 = some p.1 := by
  induction ps generalizing st with
  | nil => cases hp
  | cons q tl ih =>
    rw [List.pairwise_cons] at hpw
    rcases List.mem_cons.mp hp with rfl | hmem
    · rw [setIMatches_cons]
      constructor
      · rw [setIMatches_imatch1_ne (fun r hr => (hpw.1 r hr).1.symm) _]
        exact upd_self _ _ _
      · rw [setIMatches_imatch2_ne (fun r hr => (hpw.1 r hr).2.symm) _]
        exact upd_self _ _ _
    · exact ih hpw.2 hmem _

end Bindiff

namespace Bindiff

/-! ## Unfolding and inversion lemmas for the propagation loops -/

theorem loadBBLoop_nil (f1 f2 : Func) (algo fuel a1 a2 : Nat) (st : DiffState) :
    loadBBLoop f1 f2 algo fuel a1 a2 [] st = .ok st := by
  cases fuel <;> rfl

theorem loadBBLoop_cons (f1 f2 : Func) (algo fuel a1 a2 : Nat) (p : Nat × Nat)
    (tl : List (Nat × Nat)) (st : DiffState) :
    loadBBLoop f1 f2 algo (fuel + 1) a1 a2 (p :: tl) st =
      match resolveStep f1 f2 a1 a2 algo st with
      | .error e => .error e
      | .ok (bb1, bb2, st1) =>
        match drainInsts f1 f2 bb1 bb2 (p :: tl) st1 with
        | .error e => .error e
        | .ok (.done st2) => .ok st2
        | .ok (.cont a1' a2' ps' st2) => loadBBLoop f1 f2 algo fuel a1' a2' ps' st2 :=
  rfl

/-- Successful block resolution: when the two declared addresses resolve and
the two prior match fields are consistently set or consistently unset, the
resolution returns the two blocks and the symmetric overwrite, and touches no
other annotation. -/
theorem resolveStep_ok {f1 f2 : Func} {a1 a2 : Nat} (algo : Nat) {bb1 bb2 : BB}
    {st : DiffState}
    (hb1 : f1.findBlock a1 = some bb1) (hb2 : f2.findBlock a2 = some bb2)
    (hsome : (st.bbmatch1 bb1.addr).isSome = (st.bbmatch2 bb2.addr).isSome) :
    ∃ st0 : DiffState,
      resolveStep f1 f2 a1 a2 algo st =
        .ok (bb1, bb2, setBBMatch st0 bb1.addr bb2.addr algo) ∧
      st0.bbmatch1 = st.bbmatch1 ∧ st0.bbmatch2 = st.bbmatch2 ∧
      st0.bbalgo1 = st.bbalgo1 ∧ st0.bbalgo2 = st.bbalgo2 ∧
      st0.imatch1 = st.imatch1 ∧ st0.imatch2 = st.imatch2 ∧
      st0.single = st.single ∧ st0.funs = st.funs := by
  cases hm1 : st.bbmatch1 bb1.addr with
  | none =>
    cases hm2 : st.bbmatch2 bb2.addr with
    | some y => rw [hm1, hm2] at hsome; simp at hsome
    | none =>
      refine ⟨st, ?_, rfl, rfl, rfl, rfl, rfl, rfl, rfl, rfl⟩
      simp [resolveStep, hb1, hb2, hm1, hm2]
  | some x =>
    cases hm2 : st.bbmatch2 bb2.addr with
    | none => rw [hm1, hm2] at hsome; simp at hsome
    | some y =>
      by_cases hc : (some x != some bb2.addr || some y != some bb1.addr) = true
      · refine ⟨logConflict st bb1.addr x bb2.addr y, ?_, rfl, rfl, rfl, rfl, rfl,
          rfl, rfl, rfl⟩
        simp [resolveStep, hb1, hb2, hm1, hm2, hc]
      · refine ⟨st, ?_, rfl, rfl, rfl, rfl, rfl, rfl, rfl, rfl⟩
        rw [Bool.not_eq_true] at hc
        simp [resolveStep, hb1, hb2, hm1, hm2, hc]

/-- Inversion of a successful block resolution: the blocks come from the
declared addresses and the new state is the symmetric overwrite of a state
that differs from the input at most in the conflicts log. -/
theorem resolveStep_inv {f1 f2 : Func} {a1 a2 algo : Nat} {st : DiffState}
    {bb1 bb2 : BB} {st1 : DiffState}
    (h : resolveStep f1 f2 a1 a2 algo st = .ok (bb1, bb2, st1)) :
    f1.findBlock a1 = some bb1 ∧ f2.findBlock a2 = some bb2 ∧
    ∃ st0 : DiffState, st1 = setBBMatch st0 bb1.addr bb2.addr algo ∧
      st0.bbmatch1 = st.bbmatch1 ∧ st0.bbmatch2 = st.bbmatch2 ∧
      st0.bbalgo1 = st.bbalgo1 ∧ st0.bbalgo2 = st.bbalgo2 ∧
      st0.imatch1 = st.imatch1 ∧ st0.imatch2 = st.imatch2 ∧
      st0.single = st.single ∧ st0.funs = st.funs := by
  cases hb1 : f1.findBlock a1 with
  | none => simp [resolveStep, hb1] at h
  | some c1 =>
    cases hb2 : f2.findBlock a2 with
    | none => simp [resolveStep, hb1, hb2] at h
    | some c2 =>
      cases hm1 : st.bbmatch1 c1.addr with
      | none =>
        cases hm2 : st.bbmatch2 c2.addr with
        | none =>
          simp only [resolveStep, hb1, hb2, hm1, hm2, Option.isSome_none,
            Bool.or_self, Bool.false_eq_true, if_false, Except.ok.injEq,
            Prod.mk.injEq] at h
          obtain ⟨rfl, rfl, rfl⟩ := h
          exact ⟨rfl, rfl, st, rfl, rfl, rfl, rfl, rfl, rfl, rfl, rfl, rfl⟩
        | some y =>
          simp only [resolveStep, hb1, hb2, hm1, hm2] at h
          simp only [Option.isSome_none, Option.isSome_some, Bool.false_or,
            if_true] at h
          split at h
          · simp at h
          · simp only [Except.ok.injEq, Prod.mk.injEq] at h
            obtain ⟨rfl, rfl, rfl⟩ := h
            exact ⟨rfl, rfl, st, rfl, rfl, rfl, rfl, rfl, rfl, rfl, rfl, rfl⟩
      | some x =>
        cases hm2 : st.bbmatch2 c2.addr with
        | none =>
          simp only [resolveStep, hb1, hb2, hm1, hm2] at h
          simp only [Option.isSome_some, Bool.true_or, if_true] at h
          split at h
          · simp at h
          · simp only [Except.ok.injEq, Prod.mk.injEq] at h
            obtain ⟨rfl, rfl, rfl⟩ := h
            exact ⟨rfl, rfl, st, rfl, rfl, rfl, rfl, rfl, rfl, rfl, rfl, rfl⟩
        | some y =>
          simp only [resolveStep, hb1, hb2, hm1, hm2] at h
          simp only [Option.isSome_some, Bool.or_self, if_true] at h
          split at h
          · simp only [Except.ok.injEq, Prod.mk.injEq] at h
            obtain ⟨rfl, rfl, rfl⟩ := h
            exact ⟨rfl, rfl, logConflict st c1.addr x c2.addr y, rfl, rfl, rfl,
              rfl, rfl, rfl, rfl, rfl, rfl⟩
          · simp only [Except.ok.injEq, Prod.mk.injEq] at h
            obtain ⟨rfl, rfl, rfl⟩ := h
            exact ⟨rfl, rfl, st, rfl, rfl, rfl, rfl, rfl, rfl, rfl, rfl, rfl⟩

end Bindiff

namespace Bindiff

/-- The state carried by a drain outcome. -/
def DrainOut.state : DrainOut → DiffState
  | .done st => st
  | .cont _ _ _ st => st

/-- A fully successful drain: when both declared blocks contain every queued
instruction pair, the inner loop consumes the whole queue, setting every
symmetric instruction match and breaking never. -/
theorem drain_all_ok {f1 f2 : Func} {bb1 bb2 : BB} {ps : List (Nat × Nat)}
    (h : ∀ p ∈ ps, bb1.containsInst p.1 = true ∧ bb2.containsInst p.2 = true)
    (st : DiffState) :
    drainInsts f1 f2 bb1 bb2 ps st = .ok (.done (setIMatches st ps)) := by
  induction ps generalizing st with
  | nil => rfl
  | cons p tl ih =>
    obtain ⟨i1, i2⟩ := p
    obtain ⟨h1, h2⟩ := h (i1, i2) (by simp)
    rw [setIMatches_cons]
    show drainInsts f1 f2 bb1 bb2 ((i1, i2) :: tl) st = _
    simp only [drainInsts, h1, h2, Bool.and_self, if_true]
    exact ih (fun q hq => h q (by simp [hq])) _

/-- The drain loop never touches the function-level annotations. -/
theorem drainInsts_funs {f1 f2 : Func} {bb1 bb2 : BB} {ps : List (Nat × Nat)}
    {st : DiffState} {out : DrainOut}
    (h : drainInsts f1 f2 bb1 bb2 ps st = .ok out) : out.state.funs = st.funs := by
  induction ps generalizing st out with
  | nil =>
    simp only [drainInsts, Except.ok.injEq] at h
    subst h; rfl
  | cons p tl ih =>
    obtain ⟨i1, i2⟩ := p
    simp only [drainInsts] at h
    split at h
    · have hx := ih h
      exact hx
    · split at h
      · split at h
        · exact absurd h (by simp)
        · split at h
          · exact absurd h (by simp)
          · split at h <;>
              (simp only [Except.ok.injEq] at h; subst h; rfl)
      · simp only [Except.ok.injEq] at h
        subst h; rfl

/-- The drain loop never clears a basic-block match: any block matched before
is still matched (to something) afterwards. -/
theorem drainInsts_mono {f1 f2 : Func} {bb1 bb2 : BB} {ps : List (Nat × Nat)}
    {st : DiffState} {out : DrainOut}
    (h : drainInsts f1 f2 bb1 bb2 ps st = .ok out) (b : Nat) :
    ((st.bbmatch1 b).isSome = true → (out.state.bbmatch1 b).isSome = true) ∧
    ((st.bbmatch2 b).isSome = true → (out.state.bbmatch2 b).isSome = true) := by
  induction ps generalizing st out with
  | nil =>
    simp only [drainInsts, Except.ok.injEq] at h
    subst h; exact ⟨id, id⟩
  | cons p tl ih =>
    obtain ⟨i1, i2⟩ := p
    simp only [drainInsts] at h
    split at h
    · have hx := ih h
      exact hx
    · split at h
      · split at h
        · exact absurd h (by simp)
        · split at h
          · exact absurd h (by simp)
          · split at h <;>
              (simp only [Except.ok.injEq] at h; subst h; exact ⟨id, id⟩)
      · simp only [Except.ok.injEq] at h
        subst h; exact ⟨id, id⟩

end Bindiff

namespace Bindiff

/-- Successful block resolution leaves function-level annotations alone. -/
theorem resolveStep_funs {f1 f2 : Func} {a1 a2 algo : Nat} {st : DiffState}
    {bb1 bb2 : BB} {st1 : DiffState}
    (h : resolveStep f1 f2 a1 a2 algo st = .ok (bb1, bb2, st1)) :
    st1.funs = st.funs := by
  obtain ⟨-, -, st0, rfl, -, -, -, -, -, -, -, hfuns⟩ := resolveStep_inv h
  exact hfuns

/-- Successful block resolution never clears a basic-block match. -/
theorem resolveStep_mono {f1 f2 : Func} {a1 a2 algo : Nat} {st : DiffState}
    {bb1 bb2 : BB} {st1 : DiffState}
    (h : resolveStep f1 f2 a1 a2 algo st = .ok (bb1, bb2, st1)) (b : Nat) :
    ((st.bbmatch1 b).isSome = true → (st1.bbmatch1 b).isSome = true) ∧
    ((st.bbmatch2 b).isSome = true → (st1.bbmatch2 b).isSome = true) := by
  obtain ⟨-, -, st0, rfl, h1, h2, -, -, -, -, -, -⟩ := resolveStep_inv h
  constructor
  · intro hb
    exact upd_isSome _ _ _ (by rw [h1]; exact hb)
  · intro hb
    exact upd_isSome _ _ _ (by rw [h2]; exact hb)

/-- The whole basic-block loop leaves function-level annotations alone. -/
theorem loadBBLoop_funs {f1 f2 : Func} {algo : Nat} {fuel a1 a2 : Nat}
    {ps : List (Nat × Nat)} {st st' : DiffState}
    (h : loadBBLoop f1 f2 algo fuel a1 a2 ps st = .ok st') : st'.funs = st.funs := by
  induction fuel generalizing a1 a2 ps st st' with
  | zero =>
    cases ps with
    | nil =>
      rw [loadBBLoop_nil] at h
      simp only [Except.ok.injEq] at h
      subst h; rfl
    | cons p tl => exact absurd h (by simp [loadBBLoop])
  | succ fuel ih =>
    cases ps with
    | nil =>
      rw [loadBBLoop_nil] at h
      simp only [Except.ok.injEq] at h
      subst h; rfl
    | cons p tl =>
      rw [loadBBLoop_cons] at h
      split at h
      · exact absurd h (by simp)
      · rename_i bb1 bb2 st1 hres
        split at h
        · exact absurd h (by simp)
        · rename_i st2 hdr
          simp only [Except.ok.injEq] at h
          subst h
          exact (drainInsts_funs hdr).trans (resolveStep_funs hres)
        · rename_i a1' a2' ps' st2 hdr
          exact (ih h).trans ((drainInsts_funs hdr).trans (resolveStep_funs hres))

/-- The whole basic-block loop never clears a basic-block match. -/
theorem loadBBLoop_mono {f1 f2 : Func} {algo : Nat} {fuel a1 a2 : Nat}
    {ps : List (Nat × Nat)} {st st' : DiffState}
    (h : loadBBLoop f1 f2 algo fuel a1 a2 ps st = .ok st') (b : Nat) :
    ((st.bbmatch1 b).isSome = true → (st'.bbmatch1 b).isSome = true) ∧
    ((st.bbmatch2 b).isSome = true → (st'.bbmatch2 b).isSome = true) := by
  induction fuel generalizing a1 a2 ps st st' with
  | zero =>
    cases ps with
    | nil =>
      rw [loadBBLoop_nil] at h
      simp only [Except.ok.injEq] at h
      subst h; exact ⟨id, id⟩
    | cons p tl => exact absurd h (by simp [loadBBLoop])
  | succ fuel ih =>
    cases ps with
    | nil =>
      rw [loadBBLoop_nil] at h
      simp only [Except.ok.injEq] at h
      subst h; exact ⟨id, id⟩
    | cons p tl =>
      rw [loadBBLoop_cons] at h
      split at h
      · exact absurd h (by simp)
      · rename_i bb1 bb2 st1 hres
        split at h
        · exact absurd h (by simp)
        · rename_i st2 hdr
          simp only [Except.ok.injEq] at h
          subst h
          have hr := resolveStep_mono hres b
          have hd := drainInsts_mono hdr b
          exact ⟨fun hb => hd.1 (hr.1 hb), fun hb => hd.2 (hr.2 hb)⟩
        · rename_i a1' a2' ps' st2 hdr
          have hr := resolveStep_mono hres b
          have hd := drainInsts_mono hdr b
          have hl := ih h
          exact ⟨fun hb => hl.1 (hd.1 (hr.1 hb)), fun hb => hl.2 (hd.2 (hr.2 hb))⟩

theorem loadBasicBlockInfo_funs {f1 f2 : Func} {a1 a2 algo : Nat}
    {ps : List (Nat × Nat)} {st st' : DiffState}
    (h : loadBasicBlockInfo f1 f2 a1 a2 algo ps st = .ok st') : st'.funs = st.funs :=
  loadBBLoop_funs h

theorem loadBasicBlockInfo_mono {f1 f2 : Func} {a1 a2 algo : Nat}
    {ps : List (Nat × Nat)} {st st' : DiffState}
    (h : loadBasicBlockInfo f1 f2 a1 a2 algo ps st = .ok st') (b : Nat) :
    ((st.bbmatch1 b).isSome = true → (st'.bbmatch1 b).isSome = true) ∧
    ((st.bbmatch2 b).isSome = true → (st'.bbmatch2 b).isSome = true) :=
  loadBBLoop_mono h b

end Bindiff

namespace Bindiff

/-! ## Lemmas about function-record application -/

theorem bbsFold_funs {f1 f2 : Func} {gs : List BBGroup} {st st' : DiffState}
    (h : gs.foldlM
        (fun st g => loadBasicBlockInfo f1 f2 g.addr1 g.addr2 g.algo g.pairs st)
        st = .ok st') :
    st'.funs = st.funs := by
  induction gs generalizing st with
  | nil =>
    simp only [List.foldlM, pure, Except.pure, Except.ok.injEq] at h
    subst h; rfl
  | cons g tl ih =>
    simp only [List.foldlM] at h
    cases hg : loadBasicBlockInfo f1 f2 g.addr1 g.addr2 g.algo g.pairs st with
    | error e => rw [hg] at h; exact absurd h (by simp [Bind.bind, Except.bind])
    | ok st1 =>
      rw [hg] at h
      have h2 : tl.foldlM
          (fun st g => loadBasicBlockInfo f1 f2 g.addr1 g.addr2 g.algo g.pairs st)
          st1 = .ok st' := h
      exact (ih h2).trans (loadBasicBlockInfo_funs hg)

theorem bbsFold_mono {f1 f2 : Func} {gs : List BBGroup} {st st' : DiffState}
    (h : gs.foldlM
        (fun st g => loadBasicBlockInfo f1 f2 g.addr1 g.addr2 g.algo g.pairs st)
        st = .ok st') (b : Nat) :
    ((st.bbmatch1 b).isSome = true → (st'.bbmatch1 b).isSome = true) ∧
    ((st.bbmatch2 b).isSome = true → (st'.bbmatch2 b).isSome = true) := by
  induction gs generalizing st with
  | nil =>
    simp only [List.foldlM, pure, Except.pure, Except.ok.injEq] at h
    subst h; exact ⟨id, id⟩
  | cons g tl ih =>
    simp only [List.foldlM] at h
    cases hg : loadBasicBlockInfo f1 f2 g.addr1 g.addr2 g.algo g.pairs st with
    | error e => rw [hg] at h; exact absurd h (by simp [Bind.bind, Except.bind])
    | ok st1 =>
      rw [hg] at h
      have h2 : tl.foldlM
          (fun st g => loadBasicBlockInfo f1 f2 g.addr1 g.addr2 g.algo g.pairs st)
          st1 = .ok st' := h
      have hm := loadBasicBlockInfo_mono hg b
      have hf := ih h2
      exact ⟨fun hb => hf.1 (hm.1 hb), fun hb => hf.2 (hm.2 hb)⟩

/-- Inversion of a successful function-record application. -/
theorem loadFunctionInfo_inv {P S : Program} {r : FunRecord} {st st' : DiffState}
    (h : loadFunctionInfo P S r st = .ok st') :
    ∃ f1 f2, P.findFn r.addr1 = some f1 ∧ S.findFn r.addr2 = some f2 ∧
      r.bbs.foldlM
        (fun st g => loadBasicBlockInfo f1 f2 g.addr1 g.addr2 g.algo g.pairs st)
        (setFunMatch st r.addr1 r.addr2 r.similarity r.confidence r.algo) = .ok st' := by
  cases hp : P.findFn r.addr1 with
  | none => rw [loadFunctionInfo, hp] at h; exact absurd h (by simp)
  | some f1 =>
    cases hs : S.findFn r.addr2 with
    | none => rw [loadFunctionInfo, hp, hs] at h; exact absurd h (by simp)
    | some f2 =>
      rw [loadFunctionInfo, hp, hs] at h
      exact ⟨f1, f2, rfl, rfl, h⟩

/-- A successfully applied record annotates both its functions with the
symmetric match, the shared similarity and confidence, and the decoded
algorithm. -/
theorem loadFunctionInfo_self {P S : Program} {r : FunRecord} {st st' : DiffState}
    (h : loadFunctionInfo P S r st = .ok st') :
    st'.funs.match1 r.addr1 = some r.addr2 ∧
    st'.funs.match2 r.addr2 = some r.addr1 ∧
    st'.funs.sim1 r.addr1 = some r.similarity ∧
    st'.funs.sim2 r.addr2 = some r.similarity ∧
    st'.funs.conf1 r.addr1 = some r.confidence ∧
    st'.funs.conf2 r.addr2 = some r.confidence ∧
    st'.funs.algo1 r.addr1 = some r.algo ∧
    st'.funs.algo2 r.addr2 = some r.algo := by
  obtain ⟨f1, f2, hp, hs, hfold⟩ := loadFunctionInfo_inv h
  have hfuns := bbsFold_funs hfold
  rw [hfuns]
  simp [setFunMatch]

/-- Applying a record leaves primary-side function annotations at other
addresses unchanged. -/
theorem loadFunctionInfo_ne1 {P S : Program} {r : FunRecord} {st st' : DiffState}
    {a : Nat} (h : loadFunctionInfo P S r st = .ok st') (hne : a ≠ r.addr1) :
    st'.funs.match1 a = st.funs.match1 a ∧ st'.funs.sim1 a = st.funs.sim1 a ∧
    st'.funs.conf1 a = st.funs.conf1 a ∧ st'.funs.algo1 a = st.funs.algo1 a := by
  obtain ⟨f1, f2, hp, hs, hfold⟩ := loadFunctionInfo_inv h
  have hfuns := bbsFold_funs hfold
  rw [hfuns]
  simp only [setFunMatch]
  exact ⟨upd_ne _ _ hne, upd_ne _ _ hne, upd_ne _ _ hne, upd_ne _ _ hne⟩

/-- Applying a record leaves secondary-side function annotations at other
addresses unchanged. -/
theorem loadFunctionInfo_ne2 {P S : Program} {r : FunRecord} {st st' : DiffState}
    {a : Nat} (h : loadFunctionInfo P S r st = .ok st') (hne : a ≠ r.addr2) :
    st'.funs.match2 a = st.funs.match2 a ∧ st'.funs.sim2 a = st.funs.sim2 a ∧
    st'.funs.conf2 a = st.funs.conf2 a ∧ st'.funs.algo2 a = st.funs.algo2 a := by
  obtain ⟨f1, f2, hp, hs, hfold⟩ := loadFunctionInfo_inv h
  have hfuns := bbsFold_funs hfold
  rw [hfuns]
  simp only [setFunMatch]
  exact ⟨upd_ne _ _ hne, upd_ne _ _ hne, upd_ne _ _ hne, upd_ne _ _ hne⟩

theorem loadFunctionInfo_mono {P S : Program} {r : FunRecord} {st st' : DiffState}
    (h : loadFunctionInfo P S r st = .ok st') (b : Nat) :
    ((st.bbmatch1 b).isSome = true → (st'.bbmatch1 b).isSome = true) ∧
    ((st.bbmatch2 b).isSome = true → (st'.bbmatch2 b).isSome = true) := by
  obtain ⟨f1, f2, hp, hs, hfold⟩ := loadFunctionInfo_inv h
  exact bbsFold_mono hfold b

theorem loadAllFunctions_nil (P S : Program) (st : DiffState) :
    loadAllFunctions P S [] st = .ok st := rfl

/-- Applying a record list leaves primary-side function annotations at
addresses not named by any record unchanged. -/
theorem loadAllFunctions_ne1 {P S : Program} {recs : List FunRecord}
    {st st' : DiffState} {a : Nat}
    (h : loadAllFunctions P S recs st = .ok st') (ha : ∀ r ∈ recs, r.addr1 ≠ a) :
    st'.funs.match1 a = st.funs.match1 a ∧ st'.funs.sim1 a = st.funs.sim1 a ∧
    st'.funs.conf1 a = st.funs.conf1 a ∧ st'.funs.algo1 a = st.funs.algo1 a := by
  induction recs generalizing st with
  | nil =>
    simp only [loadAllFunctions, List.foldlM, pure, Except.pure, Except.ok.injEq] at h
    subst h; exact ⟨rfl, rfl, rfl, rfl⟩
  | cons r tl ih =>
    simp only [loadAllFunctions, List.foldlM] at h
    cases hr : loadFunctionInfo P S r st with
    | error e => rw [hr] at h; exact absurd h (by simp [Bind.bind, Except.bind])
    | ok st1 =>
      rw [hr] at h
      have h2 : loadAllFunctions P S tl st1 = .ok st' := h
      have htl := ih h2 (fun q hq => ha q (by simp [hq]))
      have hhd := loadFunctionInfo_ne1 hr (Ne.symm (ha r (by simp)))
      exact ⟨htl.1.trans hhd.1, htl.2.1.trans hhd.2.1,
             htl.2.2.1.trans hhd.2.2.1, htl.2.2.2.trans hhd.2.2.2⟩

/-- Applying a record list leaves secondary-side function annotations at
addresses not named by any record unchanged. -/
theorem loadAllFunctions_ne2 {P S : Program} {recs : List FunRecord}
    {st st' : DiffState} {a : Nat}
    (h : loadAllFunctions P S recs st = .ok st') (ha : ∀ r ∈ recs, r.addr2 ≠ a) :
    st'.funs.match2 a = st.funs.match2 a ∧ st'.funs.sim2 a = st.funs.sim2 a ∧
    st'.funs.conf2 a = st.funs.conf2 a ∧ st'.funs.algo2 a = st.funs.algo2 a := by
  induction recs generalizing st with
  | nil =>
    simp only [loadAllFunctions, List.foldlM, pure, Except.pure, Except.ok.injEq] at h
    subst h; exact ⟨rfl, rfl, rfl, rfl⟩
  | cons r tl ih =>
    simp only [loadAllFunctions, List.foldlM] at h
    cases hr : loadFunctionInfo P S r st with
    | error e => rw [hr] at h; exact absurd h (by simp [Bind.bind, Except.bind])
    | ok st1 =>
      rw [hr] at h
      have h2 : loadAllFunctions P S tl st1 = .ok st' := h
      have htl := ih h2 (fun q hq => ha q (by simp [hq]))
      have hhd := loadFunctionInfo_ne2 hr (Ne.symm (ha r (by simp)))
      exact ⟨htl.1.trans hhd.1, htl.2.1.trans hhd.2.1,
             htl.2.2.1.trans hhd.2.2.1, htl.2.2.2.trans hhd.2.2.2⟩

theorem loadAllFunctions_mono {P S : Program} {recs : List FunRecord}
    {st st' : DiffState}
    (h : loadAllFunctions P S recs st = .ok st') (b : Nat) :
    ((st.bbmatch1 b).isSome = true → (st'.bbmatch1 b).isSome = true) ∧
    ((st.bbmatch2 b).isSome = true → (st'.bbmatch2 b).isSome = true) := by
  induction recs generalizing st with
  | nil =>
    simp only [loadAllFunctions, List.foldlM, pure, Except.pure, Except.ok.injEq] at h
    subst h; exact ⟨id, id⟩
  | cons r tl ih =>
    simp only [loadAllFunctions, List.foldlM] at h
    cases hr : loadFunctionInfo P S r st with
    | error e => rw [hr] at h; exact absurd h (by simp [Bind.bind, Except.bind])
    | ok st1 =>
      rw [hr] at h
      have h2 : loadAllFunctions P S tl st1 = .ok st' := h
      have hm := loadFunctionInfo_mono hr b
      have hf := ih h2
      exact ⟨fun hb => hf.1 (hm.1 hb), fun hb => hf.2 (hm.2 hb)⟩

end Bindiff

namespace Bindiff

/-- One outer-loop iteration ending the group (inner loop drained the queue). -/
theorem loadBBLoop_step_done {f1 f2 : Func} {algo fuel a1 a2 : Nat}
    {p : Nat × Nat} {tl : List (Nat × Nat)} {st : DiffState} {bb1 bb2 : BB}
    {st1 st2 : DiffState}
    (hres : resolveStep f1 f2 a1 a2 algo st = .ok (bb1, bb2, st1))
    (hdr : drainInsts f1 f2 bb1 bb2 (p :: tl) st1 = .ok (.done st2)) :
    loadBBLoop f1 f2 algo (fuel + 1) a1 a2 (p :: tl) st = .ok st2 := by
  simp only [loadBBLoop_cons, hres, hdr]

/-- One outer-loop iteration that breaks: the loop continues with the block
addresses and queue the inner loop left behind. -/
theorem loadBBLoop_step_cont {f1 f2 : Func} {algo fuel a1 a2 : Nat}
    {p : Nat × Nat} {tl : List (Nat × Nat)} {st : DiffState} {bb1 bb2 : BB}
    {st1 st2 : DiffState} {a1' a2' : Nat} {ps' : List (Nat × Nat)}
    (hres : resolveStep f1 f2 a1 a2 algo st = .ok (bb1, bb2, st1))
    (hdr : drainInsts f1 f2 bb1 bb2 (p :: tl) st1 = .ok (.cont a1' a2' ps' st2)) :
    loadBBLoop f1 f2 algo (fuel + 1) a1 a2 (p :: tl) st =
      loadBBLoop f1 f2 algo fuel a1' a2' ps' st2 := by
  simp only [loadBBLoop_cons, hres, hdr]

end Bindiff

namespace Bindiff

/-! ## Concrete program fixtures used by counterexamples and witnesses -/

/-- Primary function with a single block at 10 holding instructions 100, 104. -/
def fA : Func := [⟨10, [100, 104]⟩]

/-- Secondary function with a single block at 20 holding instructions 200, 204. -/
def fB : Func := [⟨20, [200, 204]⟩]

/-- A state in which primary block 10 is matched (to 99) while secondary
block 20 is unmatched; reachable after an earlier conflict overwrite left a
stale one-sided pointer. -/
def oneSidedState : DiffState :=
  { initState with bbmatch1 := upd initState.bbmatch1 10 99 }

/-- Claim C1 (amended): for a basic-block group whose declared addresses
resolve to blocks containing every (duplicate-free) instruction pair of the
group, and whose two resolved blocks have consistently set or consistently
unset prior match fields, propagation sets the symmetric block match, both
block algorithms, every symmetric instruction match, and appends nothing to
single_match. -/
theorem claim_C1_full_group_resolves {f1 f2 : Func} {a1 a2 : Nat} {algo : Nat}
    {bb1 bb2 : BB} {ps : List (Nat × Nat)} {st : DiffState}
    (hb1 : f1.findBlock a1 = some bb1) (hb2 : f2.findBlock a2 = some bb2)
    (hcont : ∀ p ∈ ps, bb1.containsInst p.1 = true ∧ bb2.containsInst p.2 = true)
    (hne : ps ≠ [])
    (hpw : ps.Pairwise (fun p q => p.1 ≠ q.1 ∧ p.2 ≠ q.2))
    (hsome : (st.bbmatch1 a1).isSome = (st.bbmatch2 a2).isSome) :
    ∃ st' : DiffState,
      loadBasicBlockInfo f1 f2 a1 a2 algo ps st = .ok st' ∧
      st'.bbmatch1 a1 = some a2 ∧ st'.bbmatch2 a2 = some a1 ∧
      st'.bbalgo1 a1 = some algo ∧ st'.bbalgo2 a2 = some algo ∧
      (∀ p ∈ ps, st'.imatch1 p.1 = some p.2 ∧ st'.imatch2 p.2 = some p.1) ∧
      st'.single = st.single := by
  have ha1 : bb1.addr = a1 := Func.findBlock_addr hb1
  have ha2 : bb2.addr = a2 := Func.findBlock_addr hb2
  subst ha1; subst ha2
  obtain ⟨p, tl, rfl⟩ : ∃ p tl, ps = p :: tl := by
    cases ps with
    | nil => exact absurd rfl hne
    | cons p tl => exact ⟨p, tl, rfl⟩
  obtain ⟨st0, hres, hm1, hm2, hA1, hA2, hi1, hi2, hsg, hfu⟩ :=
    resolveStep_ok algo hb1 hb2 hsome
  have hdr := @drain_all_ok f1 f2 bb1 bb2 (p :: tl) hcont
    (setBBMatch st0 bb1.addr bb2.addr algo)
  refine ⟨setIMatches (setBBMatch st0 bb1.addr bb2.addr algo) (p :: tl),
    ?_, ?_, ?_, ?_, ?_, ?_, ?_⟩
  · show loadBBLoop f1 f2 algo (2 * (p :: tl).length + 2) bb1.addr bb2.addr
      (p :: tl) st = _
    have hf : 2 * (p :: tl).length + 2 = (2 * (p :: tl).length + 1) + 1 := rfl
    rw [hf]
    exact loadBBLoop_step_done hres hdr
  · rw [setIMatches_bbmatch1]
    simp [setBBMatch]
  · rw [setIMatches_bbmatch2]
    simp [setBBMatch]
  · rw [setIMatches_bbalgo1]
    simp [setBBMatch]
  · rw [setIMatches_bbalgo2]
    simp [setBBMatch]
  · intro q hq
    exact setIMatches_mem hpw hq _
  · rw [setIMatches_single]
    exact hsg

/-- Claim C1 counterexample: the same fully contained group, started when
block 10 has a one-sided prior match, crashes with AttributeError inside the
conflict print before any instruction pair is matched, so the claim's
conclusion fails although every pair is contained in the declared blocks. -/
theorem claim_C1_counterexample :
    (∀ p ∈ [(100, 200), (104, 204)],
        (BB.mk 10 [100, 104]).containsInst p.1 = true ∧
        (BB.mk 20 [200, 204]).containsInst p.2 = true) ∧
    fA.findBlock 10 = some ⟨10, [100, 104]⟩ ∧
    fB.findBlock 20 = some ⟨20, [200, 204]⟩ ∧
    loadBasicBlockInfo fA fB 10 20 5 [(100, 200), (104, 204)] oneSidedState =
      .error .attributeError := by
  exact ⟨by decide, rfl, rfl, rfl⟩

/-- Claim C1 witness: the amended theorem applied to a concrete fully
contained group on fresh programs. -/
theorem claim_C1_witness :
    ∃ st' : DiffState,
      loadBasicBlockInfo fA fB 10 20 5 [(100, 200), (104, 204)] initState = .ok st' ∧
      st'.bbmatch1 10 = some 20 ∧ st'.bbmatch2 20 = some 10 ∧
      st'.bbalgo1 10 = some 5 ∧ st'.bbalgo2 20 = some 5 ∧
      (∀ p ∈ [(100, 200), (104, 204)],
        st'.imatch1 p.1 = some p.2 ∧ st'.imatch2 p.2 = some p.1) ∧
      st'.single = initState.single :=
  claim_C1_full_group_resolves rfl rfl (by decide) (by decide) (by decide) rfl

end Bindiff

namespace Bindiff

/-- Claim C2: when a pair (i1, i2) fails direct lookup with neither address in
the declared blocks, both addresses have owning blocks in their functions
(per the recovery rule of lines 147-148), those owning blocks contain the
addresses and neither is already matched, the pair is re-inserted at the
front of the queue and the outer loop restarts at the owning addresses, so
the pair ends up matched inside the newly matched block pair and single_match
is untouched. -/
theorem claim_C2_recovery_requeues_and_matches {f1 f2 : Func} {a1 a2 algo : Nat}
    {bb1 bb2 nb1 nb2 : BB} {i1 i2 b1 b2 : Nat} {st : DiffState}
    (hb1 : f1.findBlock a1 = some bb1) (hb2 : f2.findBlock a2 = some bb2)
    (hn1 : bb1.containsInst i1 = false) (hn2 : bb2.containsInst i2 = false)
    (ho1 : f1.owningAddr i1 = some b1) (ho2 : f2.owningAddr i2 = some b2)
    (hf1 : f1.findBlock b1 = some nb1) (hf2 : f2.findBlock b2 = some nb2)
    (hc1 : nb1.containsInst i1 = true) (hc2 : nb2.containsInst i2 = true)
    (hum1 : st.bbmatch1 b1 = none) (hum2 : st.bbmatch2 b2 = none)
    (hsome : (st.bbmatch1 a1).isSome = (st.bbmatch2 a2).isSome) :
    (∀ (rest : List (Nat × Nat)) (stx : DiffState), stx.bbmatch1 b1 = none →
      stx.bbmatch2 b2 = none →
      drainInsts f1 f2 bb1 bb2 ((i1, i2) :: rest) stx =
        .ok (.cont b1 b2 ((i1, i2) :: rest) stx)) ∧
    ∃ st' : DiffState,
      loadBasicBlockInfo f1 f2 a1 a2 algo [(i1, i2)] st = .ok st' ∧
      st'.bbmatch1 b1 = some b2 ∧ st'.bbmatch2 b2 = some b1 ∧
      st'.bbalgo1 b1 = some algo ∧ st'.bbalgo2 b2 = some algo ∧
      st'.imatch1 i1 = some i2 ∧ st'.imatch2 i2 = some i1 ∧
      st'.single = st.single := by
  have ha1 : bb1.addr = a1 := Func.findBlock_addr hb1
  have ha2 : bb2.addr = a2 := Func.findBlock_addr hb2
  subst ha1; subst ha2
  have hnb1a : nb1.addr = b1 := Func.findBlock_addr hf1
  have hnb2a : nb2.addr = b2 := Func.findBlock_addr hf2
  subst hnb1a; subst hnb2a
  have hne1 : nb1.addr ≠ bb1.addr := by
    intro he
    rw [he, hb1] at hf1
    injection hf1 with hf1
    rw [← hf1, hn1] at hc1
    exact absurd hc1 (by simp)
  have hne2 : nb2.addr ≠ bb2.addr := by
    intro he
    rw [he, hb2] at hf2
    injection hf2 with hf2
    rw [← hf2, hn2] at hc2
    exact absurd hc2 (by simp)
  have hdrain : ∀ (rest : List (Nat × Nat)) (stx : DiffState),
      stx.bbmatch1 nb1.addr = none → stx.bbmatch2 nb2.addr = none →
      drainInsts f1 f2 bb1 bb2 ((i1, i2) :: rest) stx =
        .ok (.cont nb1.addr nb2.addr ((i1, i2) :: rest) stx) := by
    intro rest stx h1 h2
    simp [drainInsts, hn1, hn2, ho1, ho2, h1, h2]
  refine ⟨hdrain, ?_⟩
  obtain ⟨st0, hres, hm1, hm2, hA1, hA2, hi1s, hi2s, hsg, hfu⟩ :=
    resolveStep_ok algo hb1 hb2 hsome
  have h1x : (setBBMatch st0 bb1.addr bb2.addr algo).bbmatch1 nb1.addr = none := by
    show upd st0.bbmatch1 bb1.addr bb2.addr nb1.addr = none
    rw [upd_ne _ _ hne1, hm1, hum1]
  have h2x : (setBBMatch st0 bb1.addr bb2.addr algo).bbmatch2 nb2.addr = none := by
    show upd st0.bbmatch2 bb2.addr bb1.addr nb2.addr = none
    rw [upd_ne _ _ hne2, hm2, hum2]
  have hsome2 :
      ((setBBMatch st0 bb1.addr bb2.addr algo).bbmatch1 nb1.addr).isSome =
      ((setBBMatch st0 bb1.addr bb2.addr algo).bbmatch2 nb2.addr).isSome := by
    rw [h1x, h2x]
  obtain ⟨st0', hres2, hm1', hm2', hA1', hA2', hi1', hi2', hsg', hfu'⟩ :=
    resolveStep_ok algo hf1 hf2 hsome2
  have hcont2 : ∀ p ∈ [(i1, i2)],
      nb1.containsInst p.1 = true ∧ nb2.containsInst p.2 = true := by
    intro q hq
    have : q = (i1, i2) := by simpa using hq
    rw [this]
    exact ⟨hc1, hc2⟩
  have hdr2 := @drain_all_ok f1 f2 nb1 nb2 [(i1, i2)] hcont2
    (setBBMatch st0' nb1.addr nb2.addr algo)
  refine ⟨setIMatches (setBBMatch st0' nb1.addr nb2.addr algo) [(i1, i2)],
    ?_, ?_, ?_, ?_, ?_, ?_, ?_, ?_⟩
  · show loadBBLoop f1 f2 algo (3 + 1) bb1.addr bb2.addr [(i1, i2)] st = _
    rw [loadBBLoop_step_cont hres (hdrain [] _ h1x h2x)]
    show loadBBLoop f1 f2 algo (2 + 1) nb1.addr nb2.addr [(i1, i2)] _ = _
    exact loadBBLoop_step_done hres2 hdr2
  · rw [setIMatches_bbmatch1]
    exact upd_self _ _ _
  · rw [setIMatches_bbmatch2]
    exact upd_self _ _ _
  · rw [setIMatches_bbalgo1]
    exact upd_self _ _ _
  · rw [setIMatches_bbalgo2]
    exact upd_self _ _ _
  · show upd (setBBMatch st0' nb1.addr nb2.addr algo).imatch1 i1 i2 i1 = some i2
    exact upd_self _ _ _
  · show upd (setBBMatch st0' nb1.addr nb2.addr algo).imatch2 i2 i1 i2 = some i1
    exact upd_self _ _ _
  · rw [setIMatches_single]
    show st0'.single = st.single
    rw [hsg']
    exact hsg

/-- Primary function for the recovery witness: declared block 10 holds only
instruction 11; instruction 100 lives in block 30. -/
def fC : Func := [⟨10, [11]⟩, ⟨30, [100]⟩]

/-- Secondary function for the recovery witness: declared block 20 holds only
instruction 21; instruction 200 lives in block 40. -/
def fD : Func := [⟨20, [21]⟩, ⟨40, [200]⟩]

/-- Claim C2 witness: concrete recovery run of a group declared at (10, 20)
whose only pair lives in the unmatched blocks (30, 40). -/
theorem claim_C2_witness :
    (∀ (rest : List (Nat × Nat)) (stx : DiffState), stx.bbmatch1 30 = none →
      stx.bbmatch2 40 = none →
      drainInsts fC fD ⟨10, [11]⟩ ⟨20, [21]⟩ ((100, 200) :: rest) stx =
        .ok (.cont 30 40 ((100, 200) :: rest) stx)) ∧
    ∃ st' : DiffState,
      loadBasicBlockInfo fC fD 10 20 7 [(100, 200)] initState = .ok st' ∧
      st'.bbmatch1 30 = some 40 ∧ st'.bbmatch2 40 = some 30 ∧
      st'.bbalgo1 30 = some 7 ∧ st'.bbalgo2 40 = some 7 ∧
      st'.imatch1 100 = some 200 ∧ st'.imatch2 200 = some 100 ∧
      st'.single = initState.single :=
  claim_C2_recovery_requeues_and_matches rfl rfl rfl rfl rfl rfl rfl rfl rfl rfl
    rfl rfl rfl

end Bindiff

namespace Bindiff

/-- One outer-loop iteration whose inner drain raises: the error escapes the
group load. -/
theorem loadBBLoop_step_err {f1 f2 : Func} {algo fuel a1 a2 : Nat}
    {p : Nat × Nat} {tl : List (Nat × Nat)} {st : DiffState} {bb1 bb2 : BB}
    {st1 : DiffState} {e : PyErr}
    (hres : resolveStep f1 f2 a1 a2 algo st = .ok (bb1, bb2, st1))
    (hdr : drainInsts f1 f2 bb1 bb2 (p :: tl) st1 = .error e) :
    loadBBLoop f1 f2 algo (fuel + 1) a1 a2 (p :: tl) st = .error e := by
  simp only [loadBBLoop_cons, hres, hdr]

/-- Claim C3 (amended): when both blocks of the pair being resolved already
carry a match and it is not already the symmetric pair, the conflict is
reported (appended to the conflict log, the print on line 137) and then
overwritten last-write-wins, and resolution returns normally.  When exactly
one of the two blocks carries a match the report itself dereferences None and
the AttributeError escapes — see the counterexample. -/
theorem claim_C3_conflict_reported_and_overwritten {f1 f2 : Func}
    {a1 a2 algo : Nat} {bb1 bb2 : BB} {x y : Nat} {st : DiffState}
    (hb1 : f1.findBlock a1 = some bb1) (hb2 : f2.findBlock a2 = some bb2)
    (hm1 : st.bbmatch1 a1 = some x) (hm2 : st.bbmatch2 a2 = some y)
    (hconf : x ≠ a2 ∨ y ≠ a1) :
    resolveStep f1 f2 a1 a2 algo st =
      .ok (bb1, bb2, setBBMatch (logConflict st a1 x a2 y) a1 a2 algo) ∧
    (setBBMatch (logConflict st a1 x a2 y) a1 a2 algo).bbmatch1 a1 = some a2 ∧
    (setBBMatch (logConflict st a1 x a2 y) a1 a2 algo).bbmatch2 a2 = some a1 ∧
    (setBBMatch (logConflict st a1 x a2 y) a1 a2 algo).conflicts =
      st.conflicts ++ [(a1, x, a2, y)] := by
  have ha1 : bb1.addr = a1 := Func.findBlock_addr hb1
  have ha2 : bb2.addr = a2 := Func.findBlock_addr hb2
  subst ha1; subst ha2
  have hcnd : (some x != some bb2.addr || some y != some bb1.addr) = true := by
    rcases hconf with h | h <;> simp [h]
  refine ⟨?_, upd_self _ _ _, upd_self _ _ _, rfl⟩
  simp [resolveStep, hb1, hb2, hm1, hm2, hcnd]

/-- A state in which secondary block 20 is matched (to 88) while primary
block 10 is unmatched. -/
def oneSidedState2 : DiffState :=
  { initState with bbmatch2 := upd initState.bbmatch2 20 88 }

/-- Claim C3 counterexample: with a conflict in which only one of the two
blocks already has a match, the conflict print dereferences None and the
AttributeError escapes; the match is not overwritten. -/
theorem claim_C3_counterexample :
    oneSidedState2.bbmatch2 20 = some 88 ∧ oneSidedState2.bbmatch1 10 = none ∧
    resolveStep fA fB 10 20 5 oneSidedState2 = .error .attributeError :=
  ⟨rfl, rfl, rfl⟩

/-- A state in which both block 10 and block 20 are already matched, to 99
and 88 respectively. -/
def bothMatchedState : DiffState :=
  { initState with
    bbmatch1 := upd initState.bbmatch1 10 99
    bbmatch2 := upd initState.bbmatch2 20 88 }

/-- Claim C3 witness: a concrete two-sided conflict is logged and
overwritten without an exception. -/
theorem claim_C3_witness :
    resolveStep fA fB 10 20 5 bothMatchedState =
      .ok (⟨10, [100, 104]⟩, ⟨20, [200, 204]⟩,
        setBBMatch (logConflict bothMatchedState 10 99 20 88) 10 20 5) ∧
    (setBBMatch (logConflict bothMatchedState 10 99 20 88) 10 20 5).bbmatch1 10 =
      some 20 ∧
    (setBBMatch (logConflict bothMatchedState 10 99 20 88) 10 20 5).bbmatch2 20 =
      some 10 ∧
    (setBBMatch (logConflict bothMatchedState 10 99 20 88) 10 20 5).conflicts =
      bothMatchedState.conflicts ++ [(10, 99, 20, 88)] :=
  claim_C3_conflict_reported_and_overwritten rfl rfl rfl rfl (Or.inl (by decide))

/-- Claim C4 (amended): when a failed pair has neither address in the
declared blocks and either address is found nowhere in its function (neither
a block address nor inside any block, so the recovery comprehension is
empty), the recovery raises an uncaught IndexError: the group load fails and
the pair is not appended to single_match. -/
theorem claim_C4_orphan_address_raises {f1 f2 : Func} {a1 a2 algo : Nat}
    {bb1 bb2 : BB} {i1 i2 : Nat} {rest : List (Nat × Nat)} {st : DiffState}
    (hb1 : f1.findBlock a1 = some bb1) (hb2 : f2.findBlock a2 = some bb2)
    (hsome : (st.bbmatch1 a1).isSome = (st.bbmatch2 a2).isSome)
    (hn1 : bb1.containsInst i1 = false) (hn2 : bb2.containsInst i2 = false)
    (horph : f1.owningAddr i1 = none ∨ f2.owningAddr i2 = none) :
    loadBasicBlockInfo f1 f2 a1 a2 algo ((i1, i2) :: rest) st =
      .error .indexError := by
  have ha1 : bb1.addr = a1 := Func.findBlock_addr hb1
  have ha2 : bb2.addr = a2 := Func.findBlock_addr hb2
  subst ha1; subst ha2
  obtain ⟨st0, hres, -, -, -, -, -, -, -, -⟩ := resolveStep_ok algo hb1 hb2 hsome
  have hdr : drainInsts f1 f2 bb1 bb2 ((i1, i2) :: rest)
      (setBBMatch st0 bb1.addr bb2.addr algo) = .error .indexError := by
    rcases horph with h | h
    · simp [drainInsts, hn1, hn2, h]
    · cases ho1 : f1.owningAddr i1 with
      | none => simp [drainInsts, hn1, hn2, ho1]
      | some b1 => simp [drainInsts, hn1, hn2, ho1, h]
  show loadBBLoop f1 f2 algo (2 * ((i1, i2) :: rest).length + 2) bb1.addr
    bb2.addr ((i1, i2) :: rest) st = .error .indexError
  have hf : 2 * ((i1, i2) :: rest).length + 2 =
      (2 * ((i1, i2) :: rest).length + 1) + 1 := rfl
  rw [hf]
  exact loadBBLoop_step_err hres hdr

/-- Primary function whose only block 10 holds only instruction 11; the
queued instruction 100 exists nowhere in it. -/
def fE : Func := [⟨10, [11]⟩]

/-- Secondary function whose only block 20 holds only instruction 21. -/
def fF : Func := [⟨20, [21]⟩]

/-- The single-function program containing fE at address 1000. -/
def orphanP : Program := [(1000, fE)]

/-- The single-function program containing fF at address 2000. -/
def orphanS : Program := [(2000, fF)]

/-- A store record whose basic-block group queues a pair whose addresses
exist nowhere in the two functions. -/
def orphanRec : FunRecord := ⟨1000, 2000, 1/2, 1/2, 1, [⟨10, 20, 3, [(100, 200)]⟩]⟩

/-- Claim C4 counterexample: instruction address 100 is found nowhere in its
function, and instead of appending (100, 200) to single_match the whole
session construction fails with the uncaught IndexError. -/
theorem claim_C4_counterexample :
    fE.hasBlockAddr 100 = false ∧ fE.owningBlock 100 = none ∧
    loadAllFunctions orphanP orphanS [orphanRec] initState =
      .error .indexError :=
  ⟨rfl, rfl, rfl⟩

/-- Claim C4 witness: the amended theorem applied to the concrete orphan
pair. -/
theorem claim_C4_witness :
    loadBasicBlockInfo fE fF 10 20 3 [(100, 200)] initState =
      .error .indexError :=
  claim_C4_orphan_address_raises rfl rfl rfl rfl rfl (Or.inl rfl)

/-- Claim C5 (amended): a function record whose address1 is absent from the
primary program (or address2 from the secondary) raises an uncaught KeyError
that aborts the whole record-application loop: the session fails and the
remaining records are never applied (the result does not depend on them). -/
theorem claim_C5_missing_function_aborts_session {P S : Program} {r : FunRecord}
    (hmiss : P.findFn r.addr1 = none ∨ S.findFn r.addr2 = none)
    (rest : List FunRecord) (st : DiffState) :
    loadAllFunctions P S (r :: rest) st = .error .keyError := by
  have hr : loadFunctionInfo P S r st = .error .keyError := by
    rcases hmiss with h | h
    · cases hs : S.findFn r.addr2 <;> simp [loadFunctionInfo, h, hs]
    · cases hp : P.findFn r.addr1 <;> simp [loadFunctionInfo, h, hp]
  simp only [loadAllFunctions, List.foldlM, hr]
  rfl

/-- The primary program holding fA at function address 1000. -/
def progP2 : Program := [(1000, fA)]

/-- The secondary program holding fB at function address 2000. -/
def progS2 : Program := [(2000, fB)]

/-- A function record naming a primary address (1234) absent from progP2. -/
def missingRec : FunRecord := ⟨1234, 2000, 1/2, 1/2, 1, []⟩

/-- A well-formed function record for the (1000, 2000) pair with one fully
contained basic-block group. -/
def okRec : FunRecord :=
  ⟨1000, 2000, 19/20, 9/10, 4, [⟨10, 20, 2, [(100, 200), (104, 204)]⟩]⟩

/-- Claim C5 counterexample: with a record list whose first record names a
missing primary address, the whole session construction fails, although the
remaining record alone would have loaded fine — so the failure is not
"fatal only for that function". -/
theorem claim_C5_counterexample :
    progP2.findFn 1234 = none ∧
    loadAllFunctions progP2 progS2 [missingRec, okRec] initState =
      .error .keyError ∧
    (∃ stF, loadAllFunctions progP2 progS2 [okRec] initState = .ok stF) :=
  ⟨rfl, rfl, ⟨_, rfl⟩⟩

/-- Claim C5 witness: the amended theorem applied to the concrete record
list. -/
theorem claim_C5_witness :
    loadAllFunctions progP2 progS2 [missingRec, okRec] initState =
      .error .keyError :=
  @claim_C5_missing_function_aborts_session progP2 progS2 missingRec
    (Or.inl rfl) [okRec] initState

end Bindiff

namespace Bindiff

/-- Claim C6: after a successful propagation run whose function records carry
pairwise distinct primary addresses and pairwise distinct secondary addresses
(no function-level conflict; basic-block conflicts cannot touch function
annotations), every record's function pair is matched symmetrically and both
sides carry the record's similarity, confidence and decoded algorithm. -/
theorem claim_C6_function_pair_symmetry {P S : Program} {recs : List FunRecord}
    {st0 stF : DiffState}
    (hdist : recs.Pairwise (fun r q => r.addr1 ≠ q.addr1 ∧ r.addr2 ≠ q.addr2))
    (hrun : loadAllFunctions P S recs st0 = .ok stF) :
    ∀ r ∈ recs,
      stF.funs.match1 r.addr1 = some r.addr2 ∧
      stF.funs.match2 r.addr2 = some r.addr1 ∧
      stF.funs.sim1 r.addr1 = some r.similarity ∧
      stF.funs.sim2 r.addr2 = some r.similarity ∧
      stF.funs.conf1 r.addr1 = some r.confidence ∧
      stF.funs.conf2 r.addr2 = some r.confidence ∧
      stF.funs.algo1 r.addr1 = some r.algo ∧
      stF.funs.algo2 r.addr2 = some r.algo := by
  induction recs generalizing st0 with
  | nil => intro r hr; cases hr
  | cons q tl ih =>
    rw [List.pairwise_cons] at hdist
    simp only [loadAllFunctions, List.foldlM] at hrun
    cases hq : loadFunctionInfo P S q st0 with
    | error e =>
      rw [hq] at hrun
      exact absurd hrun (by simp [Bind.bind, Except.bind])
    | ok st1 =>
      rw [hq] at hrun
      have htl : loadAllFunctions P S tl st1 = .ok stF := hrun
      intro r hr
      rcases List.mem_cons.mp hr with rfl | hmem
      · have hself := loadFunctionInfo_self hq
        have hp1 := loadAllFunctions_ne1 htl (fun w hw => ((hdist.1 w hw).1).symm)
        have hp2 := loadAllFunctions_ne2 htl (fun w hw => ((hdist.1 w hw).2).symm)
        exact ⟨hp1.1.trans hself.1, hp2.1.trans hself.2.1,
               hp1.2.1.trans hself.2.2.1, hp2.2.1.trans hself.2.2.2.1,
               hp1.2.2.1.trans hself.2.2.2.2.1, hp2.2.2.1.trans hself.2.2.2.2.2.1,
               hp1.2.2.2.trans hself.2.2.2.2.2.2.1,
               hp2.2.2.2.trans hself.2.2.2.2.2.2.2⟩
      · exact ih hdist.2 htl r hmem

/-- Claim C6 witness: the store of one record for the pair (1000, 2000) with
similarity 0.95, confidence 0.9, algorithm 4 and one contained block group. -/
theorem claim_C6_witness :
    ∃ stF, loadAllFunctions progP2 progS2 [okRec] initState = .ok stF ∧
      stF.funs.match1 1000 = some 2000 ∧ stF.funs.match2 2000 = some 1000 ∧
      stF.funs.sim1 1000 = some (19/20) ∧ stF.funs.sim2 2000 = some (19/20) ∧
      stF.funs.conf1 1000 = some (9/10) ∧ stF.funs.conf2 2000 = some (9/10) ∧
      stF.funs.algo1 1000 = some 4 ∧ stF.funs.algo2 2000 = some 4 := by
  obtain ⟨stF, hrun⟩ :
      ∃ stF, loadAllFunctions progP2 progS2 [okRec] initState = .ok stF :=
    ⟨_, rfl⟩
  have h := claim_C6_function_pair_symmetry
    (List.pairwise_singleton _ _) hrun okRec (by simp)
  exact ⟨stF, hrun, h.1, h.2.1, h.2.2.1, h.2.2.2.1, h.2.2.2.2.1,
    h.2.2.2.2.2.1, h.2.2.2.2.2.2.1, h.2.2.2.2.2.2.2⟩

end Bindiff

namespace Bindiff

/-- round3 always lands on a multiple of 1/1000: exactly 3 decimal places. -/
theorem round3_three_decimals (q : ℚ) : ∃ n : ℤ, round3 q = (n : ℚ) / 1000 :=
  ⟨round (1000 * q), rfl⟩

/-- round3 of a value in [0,1] stays in [0,1]. -/
theorem round3_mem_unit {q : ℚ} (h0 : 0 ≤ q) (h1 : q ≤ 1) :
    0 ≤ round3 q ∧ round3 q ≤ 1 := by
  have hlow : (0 : ℤ) ≤ round (1000 * q) := by
    rw [round_eq]
    exact Int.floor_nonneg.mpr (by linarith)
  have hhigh : round (1000 * q) ≤ 1000 := by
    rw [round_eq]
    have h2 : ⌊1000 * q + 1/2⌋ ≤ ⌊(1000 : ℚ) + 1/2⌋ :=
      Int.floor_le_floor (by linarith)
    have h3 : (⌊(1000 : ℚ) + 1/2⌋ : ℤ) = 1000 := by norm_num
    rw [h3] at h2
    exact h2
  constructor
  · apply div_nonneg _ (by norm_num)
    exact_mod_cast hlow
  · rw [round3, div_le_one (by norm_num)]
    exact_mod_cast hhigh

/-- Claim C7: for store similarity/confidence in [0,1], the loaded session
values are exact multiples of 1/1000 (three decimal places), lie in [0,1],
and are applied identically to the primary and the secondary program objects
as session-wide attributes. -/
theorem claim_C7_metadata_rounding {sim conf : ℚ}
    (hs0 : 0 ≤ sim) (hs1 : sim ≤ 1) (hc0 : 0 ≤ conf) (hc1 : conf ≤ 1) :
    (∃ n : ℤ, (loadMetadataAndApply sim conf).similarity = (n : ℚ) / 1000) ∧
    (∃ n : ℤ, (loadMetadataAndApply sim conf).confidence = (n : ℚ) / 1000) ∧
    0 ≤ (loadMetadataAndApply sim conf).similarity ∧
    (loadMetadataAndApply sim conf).similarity ≤ 1 ∧
    0 ≤ (loadMetadataAndApply sim conf).confidence ∧
    (loadMetadataAndApply sim conf).confidence ≤ 1 ∧
    (loadMetadataAndApply sim conf).primarySim =
      (loadMetadataAndApply sim conf).similarity ∧
    (loadMetadataAndApply sim conf).secondarySim =
      (loadMetadataAndApply sim conf).similarity ∧
    (loadMetadataAndApply sim conf).primaryConf =
      (loadMetadataAndApply sim conf).confidence ∧
    (loadMetadataAndApply sim conf).secondaryConf =
      (loadMetadataAndApply sim conf).confidence := by
  obtain ⟨hsl, hsu⟩ := round3_mem_unit hs0 hs1
  obtain ⟨hcl, hcu⟩ := round3_mem_unit hc0 hc1
  exact ⟨round3_three_decimals sim, round3_three_decimals conf,
    hsl, hsu, hcl, hcu, rfl, rfl, rfl, rfl⟩

/-- Claim C7 witness: metadata loading at similarity 0.95, confidence 0.9. -/
theorem claim_C7_witness :
    (∃ n : ℤ,
      (loadMetadataAndApply (19/20) (9/10)).similarity = (n : ℚ) / 1000) ∧
    (∃ n : ℤ,
      (loadMetadataAndApply (19/20) (9/10)).confidence = (n : ℚ) / 1000) ∧
    0 ≤ (loadMetadataAndApply (19/20) (9/10)).similarity ∧
    (loadMetadataAndApply (19/20) (9/10)).similarity ≤ 1 ∧
    0 ≤ (loadMetadataAndApply (19/20) (9/10)).confidence ∧
    (loadMetadataAndApply (19/20) (9/10)).confidence ≤ 1 ∧
    (loadMetadataAndApply (19/20) (9/10)).primarySim =
      (loadMetadataAndApply (19/20) (9/10)).similarity ∧
    (loadMetadataAndApply (19/20) (9/10)).secondarySim =
      (loadMetadataAndApply (19/20) (9/10)).similarity ∧
    (loadMetadataAndApply (19/20) (9/10)).primaryConf =
      (loadMetadataAndApply (19/20) (9/10)).confidence ∧
    (loadMetadataAndApply (19/20) (9/10)).secondaryConf =
      (loadMetadataAndApply (19/20) (9/10)).confidence :=
  claim_C7_metadata_rounding (by norm_num) (by norm_num) (by norm_num)
    (by norm_num)

end Bindiff

namespace Bindiff

/-- Claim C8 (amended): the temporary directory is removed exactly on the
fully successful path: removal happens iff the run returns 0 (differ
succeeded and an output artifact was found and moved).  On a nonzero differ
exit and on a missing artifact (-2) the directory is left behind. -/
theorem claim_C8_tmpdir_removed_iff_success (retcode : Int) (s1 s2 : String)
    (fs : List DFile) :
    (startDiffing retcode s1 s2 fs).removedTmp = true ↔
    (startDiffing retcode s1 s2 fs).retOut = 0 := by
  cases hrc : (retcode != 0) with
  | true =>
    have hne : retcode ≠ 0 := by simpa using hrc
    simp [startDiffing, hrc, hne]
  | false =>
    have hrc0 : retcode = 0 := by simpa using hrc
    subst hrc0
    by_cases hmem : (⟨s1 ++ "_vs_" ++ s2, ".BinDiff"⟩ : DFile) ∈ fs
    · simp [startDiffing, hmem]
    · cases hfind : fs.find? (fun f => f.ext == ".BinExport") with
      | some f => simp [startDiffing, hmem, hfind]
      | none => norm_num [startDiffing, hmem, hfind]

/-- Claim C8 counterexample: the directory survives both failure exits — the
differ failing with exit code 1, and a successful differ run whose output
directory holds no artifact. -/
theorem claim_C8_counterexample :
    (startDiffing 1 "a" "b" []).removedTmp = false ∧
    (startDiffing 0 "a" "b" [⟨"junk", ".txt"⟩]).removedTmp = false ∧
    (startDiffing 0 "a" "b" [⟨"junk", ".txt"⟩]).retOut = -2 :=
  ⟨rfl, rfl, rfl⟩

/-- find? is the head of the filtered list. -/
theorem find?_eq_head?_filter {α : Type} (p : α → Bool) (l : List α) :
    l.find? p = (l.filter p).head? := by
  induction l with
  | nil => rfl
  | cons a tl ih =>
    cases h : p a with
    | true =>
      rw [List.find?_cons_of_pos _ h, List.filter_cons_of_pos h, List.head?_cons]
    | false =>
      have h2 : ¬p a = true := by rw [h]; exact Bool.false_ne_true
      rw [List.find?_cons_of_neg _ h2, List.filter_cons_of_neg h2, ih]

/-- Claim C9 (amended): when the expected artifact name is absent, the facade
scans the directory for files with extension ".BinExport" (the exporter input
extension — not the ".BinDiff" diff-store extension used by the expected
name), moves the first such file, warns whenever the directory holds more
than one entry of any kind, and fails with -2 (removing nothing) when no
".BinExport" file exists. -/
theorem claim_C9_fallback_scans_binexport (s1 s2 : String) (fs : List DFile)
    (hmiss : (⟨s1 ++ "_vs_" ++ s2, ".BinDiff"⟩ : DFile) ∉ fs) :
    (startDiffing 0 s1 s2 fs).warned = decide (fs.length > 1) ∧
    (startDiffing 0 s1 s2 fs).movedFile =
      (fs.filter (fun f => f.ext == ".BinExport")).head? ∧
    ((fs.filter (fun f => f.ext == ".BinExport")).head? = none →
      (startDiffing 0 s1 s2 fs).retOut = -2 ∧
      (startDiffing 0 s1 s2 fs).removedTmp = false) := by
  have hc : fs.contains ⟨s1 ++ "_vs_" ++ s2, ".BinDiff"⟩ = false := by
    simpa using hmiss
  have hff := find?_eq_head?_filter (fun f => f.ext == ".BinExport") fs
  simp only [startDiffing, bne_self_eq_false, Bool.false_eq_true, if_false,
    hc, hff]
  cases hh : (List.filter (fun f => f.ext == ".BinExport") fs).head? with
  | none => simp [hh]
  | some f => simp [hh]

/-- Claim C9 counterexample: the temporary directory holds exactly one file
and it carries the diff-store extension ".BinDiff" (just not the expected
name), yet the facade moves nothing and fails with -2 instead of moving the
first diff-store-extension file. -/
theorem claim_C9_counterexample :
    ((⟨"x", ".BinDiff"⟩ : DFile).ext = ".BinDiff") ∧
    (startDiffing 0 "a" "b" [⟨"x", ".BinDiff"⟩]).movedFile = none ∧
    (startDiffing 0 "a" "b" [⟨"x", ".BinDiff"⟩]).retOut = -2 :=
  ⟨rfl, rfl, rfl⟩

/-- Claim C9 witness: the amended theorem at a directory holding a stray file
and a ".BinExport" file. -/
theorem claim_C9_witness :
    (startDiffing 0 "a" "b" [⟨"x", ".tmp"⟩, ⟨"y", ".BinExport"⟩]).warned =
      decide (([⟨"x", ".tmp"⟩, ⟨"y", ".BinExport"⟩] : List DFile).length > 1) ∧
    (startDiffing 0 "a" "b" [⟨"x", ".tmp"⟩, ⟨"y", ".BinExport"⟩]).movedFile =
      (([⟨"x", ".tmp"⟩, ⟨"y", ".BinExport"⟩] : List DFile).filter
        (fun f => f.ext == ".BinExport")).head? ∧
    ((([⟨"x", ".tmp"⟩, ⟨"y", ".BinExport"⟩] : List DFile).filter
        (fun f => f.ext == ".BinExport")).head? = none →
      (startDiffing 0 "a" "b" [⟨"x", ".tmp"⟩, ⟨"y", ".BinExport"⟩]).retOut = -2 ∧
      (startDiffing 0 "a" "b" [⟨"x", ".tmp"⟩, ⟨"y", ".BinExport"⟩]).removedTmp =
        false) :=
  claim_C9_fallback_scans_binexport "a" "b" [⟨"x", ".tmp"⟩, ⟨"y", ".BinExport"⟩]
    (by decide)

/-- Claim C10: a conflict overwrite reassigns only the two resolved blocks'
match pointers: the displaced counterpart keeps its stale pointer back to
bb1, leaving an asymmetric cross-reference, and no propagation step (at any
level) ever clears a set basic-block match. -/
theorem claim_C10_stale_pointer_persists {f1 f2 : Func} {a1 a2 algo : Nat}
    {bb1 bb2 : BB} {x y : Nat} {st : DiffState}
    (hb1 : f1.findBlock a1 = some bb1) (hb2 : f2.findBlock a2 = some bb2)
    (hm1 : st.bbmatch1 a1 = some x) (hm2 : st.bbmatch2 a2 = some y)
    (hxne : x ≠ a2) (hstale : st.bbmatch2 x = some a1) :
    (∃ st1, resolveStep f1 f2 a1 a2 algo st = .ok (bb1, bb2, st1) ∧
      st1.bbmatch1 a1 = some a2 ∧
      st1.bbmatch2 x = some a1 ∧
      st1.bbmatch1 a1 ≠ some x ∧
      (∀ b, b ≠ a1 → st1.bbmatch1 b = st.bbmatch1 b) ∧
      (∀ b, b ≠ a2 → st1.bbmatch2 b = st.bbmatch2 b) ∧
      st1.imatch1 = st.imatch1 ∧ st1.imatch2 = st.imatch2 ∧
      st1.single = st.single) ∧
    (∀ (P S : Program) (recs : List FunRecord) (st0 stF : DiffState) (b : Nat),
      loadAllFunctions P S recs st0 = .ok stF →
      (st0.bbmatch1 b).isSome = true → (stF.bbmatch1 b).isSome = true) ∧
    (∀ (P S : Program) (recs : List FunRecord) (st0 stF : DiffState) (b : Nat),
      loadAllFunctions P S recs st0 = .ok stF →
      (st0.bbmatch2 b).isSome = true → (stF.bbmatch2 b).isSome = true) := by
  have ha1 : bb1.addr = a1 := Func.findBlock_addr hb1
  have ha2 : bb2.addr = a2 := Func.findBlock_addr hb2
  subst ha1; subst ha2
  refine ⟨?_, fun P S recs st0 stF b h hb => (loadAllFunctions_mono h b).1 hb,
    fun P S recs st0 stF b h hb => (loadAllFunctions_mono h b).2 hb⟩
  have hsome : (st.bbmatch1 bb1.addr).isSome = (st.bbmatch2 bb2.addr).isSome := by
    rw [hm1, hm2]
    rfl
  obtain ⟨st0, hres, hm1f, hm2f, -, -, hi1, hi2, hsg, -⟩ :=
    resolveStep_ok algo hb1 hb2 hsome
  refine ⟨setBBMatch st0 bb1.addr bb2.addr algo, hres, upd_self _ _ _,
    ?_, ?_, ?_, ?_, hi1, hi2, hsg⟩
  · show upd st0.bbmatch2 bb2.addr bb1.addr x = some bb1.addr
    rw [upd_ne _ _ hxne, hm2f, hstale]
  · show upd st0.bbmatch1 bb1.addr bb2.addr bb1.addr ≠ some x
    rw [upd_self]
    intro hcc
    injection hcc with hcc
    exact hxne hcc.symm
  · intro b hbne
    show upd st0.bbmatch1 bb1.addr bb2.addr b = st.bbmatch1 b
    rw [upd_ne _ _ hbne, hm1f]
  · intro b hbne
    show upd st0.bbmatch2 bb2.addr bb1.addr b = st.bbmatch2 b
    rw [upd_ne _ _ hbne, hm2f]

/-- A reachable conflict state: primary block 10 was matched to 77 earlier
(so 77 points back at 10), and the pair (10, 20) is now being resolved while
20 is matched to 88. -/
def staleState : DiffState :=
  { initState with
    bbmatch1 := upd initState.bbmatch1 10 77
    bbmatch2 := upd (upd initState.bbmatch2 77 10) 20 88 }

/-- Claim C10 witness: the concrete conflict overwrite of (10, 20) leaves
block 77 still pointing at block 10 while block 10 now points at 20. -/
theorem claim_C10_witness :
    (∃ st1, resolveStep fA fB 10 20 5 staleState =
        .ok (⟨10, [100, 104]⟩, ⟨20, [200, 204]⟩, st1) ∧
      st1.bbmatch1 10 = some 20 ∧
      st1.bbmatch2 77 = some 10 ∧
      st1.bbmatch1 10 ≠ some 77 ∧
      (∀ b, b ≠ 10 → st1.bbmatch1 b = staleState.bbmatch1 b) ∧
      (∀ b, b ≠ 20 → st1.bbmatch2 b = staleState.bbmatch2 b) ∧
      st1.imatch1 = staleState.imatch1 ∧ st1.imatch2 = staleState.imatch2 ∧
      st1.single = staleState.single) ∧
    (∀ (P S : Program) (recs : List FunRecord) (st0 stF : DiffState) (b : Nat),
      loadAllFunctions P S recs st0 = .ok stF →
      (st0.bbmatch1 b).isSome = true → (stF.bbmatch1 b).isSome = true) ∧
    (∀ (P S : Program) (recs : List FunRecord) (st0 stF : DiffState) (b : Nat),
      loadAllFunctions P S recs st0 = .ok stF →
      (st0.bbmatch2 b).isSome = true → (stF.bbmatch2 b).isSome = true) :=
  claim_C10_stale_pointer_persists rfl rfl rfl rfl (by decide) rfl

end Bindiff
